import Mathlib

/-!
A shallow embedding of the scheduler / plugin-dispatch core of the goday
terminal dashboard (Go), together with theorems settling the specification
claims about it.

Conventions of the embedding:
* Go strings are modelled as `List Char`; `strings.ToLower` is `lowerStr`,
  `strings.Contains` is `containsSub`.
* `time.Time` / `time.Duration` are modelled as `Int` (nanoseconds); each
  call of `time.Now()` inside an operation becomes an explicit parameter,
  in the order the calls occur in the source.
* Go maps are modelled as association lists in insertion order; since Go
  map iteration order is unspecified, functions that range over a map take
  the iteration order (a permutation of the stored values) as a parameter.
* Network calls are external: a fetch operation takes its outcome (which
  step failed, or the decoded payload) as an explicit parameter.
-/

namespace GoDay

/-- `strings.ToLower` on a Go string. -/
def lowerStr (s : List Char) : List Char := s.map Char.toLower

/-- Does `hay` start with `needle`? (helper for substring search). -/
def startsWith : List Char → List Char → Bool
  | _, [] => true
  | [], _ :: _ => false
  | c :: cs, n :: ns => c == n && startsWith cs ns

/-- `strings.Contains hay needle`: `needle` occurs as a contiguous substring
of `hay`.  `strings.Contains s ""` is `true`, as in Go. -/
def containsSub : List Char → List Char → Bool
  | [], needle => needle.isEmpty
  | c :: cs, needle => startsWith (c :: cs) needle || containsSub cs needle

/-- `NewsItem` from `providers.go`. -/
structure NewsItem where
  title : List Char
  url : List Char
  points : Int
  author : List Char
  createdAt : Int
  objectID : List Char
  source : List Char
  description : List Char
  tags : List (List Char)
  deriving DecidableEq

/-- `BaseNewsPlugin.filterByCurrentTag` (unnamed part_002, lines 671-699).
The receiver only contributes its `currentTag` field, passed here directly.
An item is kept when its lowered title or description contains the lowered
tag as a substring, or one of its own tags is case-insensitively equal to
the tag; when the current tag is `"all"` or empty everything passes. -/
def filterByCurrentTag (currentTag : List Char) (items : List NewsItem) : List NewsItem :=
  if currentTag == "all".toList || currentTag == [] then items
  else
    let tagLower := lowerStr currentTag
    items.foldl (fun filtered item =>
      let titleMatch := containsSub (lowerStr item.title) tagLower
      let descMatch := containsSub (lowerStr item.description) tagLower
      let tagMatch := item.tags.any (fun tag => lowerStr tag == tagLower)
      if titleMatch || descMatch || tagMatch then filtered ++ [item] else filtered) []

/-- Modelled from the spec's words, for comparison with the code (claim C6):
"an item matches if its title, description, or any of its own tags
case-insensitively contains the active tag substring".  Note the tag clause
uses substring containment here, where the code uses equality. -/
def specMatchByTag (currentTag : List Char) (item : NewsItem) : Bool :=
  containsSub (lowerStr item.title) (lowerStr currentTag) ||
  containsSub (lowerStr item.description) (lowerStr currentTag) ||
  item.tags.any (fun tag => containsSub (lowerStr tag) (lowerStr currentTag))

/-- The fields of `WidgetManager` (unnamed part_006) that tag cycling uses. -/
structure WidgetManager where
  newsTags : List String
  newsTagIndex : Nat
  deriving DecidableEq

/-- `WidgetManager.CycleNewsTag` (unnamed part_006, lines 142-146). -/
def cycleNewsTag (wm : WidgetManager) : WidgetManager :=
  if 0 < wm.newsTags.length then
    { wm with newsTagIndex := (wm.newsTagIndex + 1) % (wm.newsTags.length + 1) }
  else wm

/-- `WidgetManager.GetCurrentNewsTag` (unnamed part_006, lines 148-156).
The Go code indexes `NewsTags[NewsTagIndex-1]` under the guard
`NewsTagIndex <= len(NewsTags)`, which keeps the access in range; `getD`
supplies a default that is never reached under that guard. -/
def getCurrentNewsTag (wm : WidgetManager) : String :=
  if wm.newsTagIndex == 0 then "All"
  else if wm.newsTagIndex ≤ wm.newsTags.length then wm.newsTags.getD (wm.newsTagIndex - 1) ""
  else "All"

/-- `Task` from `providers.go` (the `Provider interface{}` field carries no
data used by the scheduler and is omitted). -/
structure Task where
  id : String
  interval : Int
  lastRun : Int
  nextRun : Int
  deriving DecidableEq

/-- `Scheduler` from `providers.go`: the Go map `tasks` is an association
list in insertion order with unique keys. -/
structure Scheduler where
  tasks : List (String × Task)
  deriving DecidableEq

/-- First-match lookup in the task map. -/
def lookupTask : List (String × Task) → String → Option Task
  | [], _ => none
  | kv :: rest, id => if kv.fst == id then some kv.snd else lookupTask rest id

/-- The loop body of `Scheduler.GetNextTask`:
`if next == nil || task.NextRun.Before(next.NextRun) { next = task }`. -/
def chooseNext (next : Option Task) (task : Task) : Option Task :=
  match next with
  | none => some task
  | some n => if task.nextRun < n.nextRun then some task else some n

/-- `Scheduler.GetNextTask` (providers.go, lines 350-358).  The Go `range`
over the map visits the stored tasks in an unspecified order, so the
iteration order is a parameter (any permutation of the stored tasks). -/
def getNextTask (iter : List Task) : Option Task :=
  iter.foldl chooseNext none

/-- `Scheduler.UpdateTask` (providers.go, lines 360-365).  The source calls
`time.Now()` twice: `now1` is the reading stored into `LastRun`, `now2` the
reading used for `NextRun = time.Now().Add(task.Interval)`. -/
def updateTask (s : Scheduler) (id : String) (now1 now2 : Int) : Scheduler :=
  { s with tasks := s.tasks.map (fun kv =>
      if kv.fst == id then
        (kv.fst, { kv.snd with lastRun := now1, nextRun := now2 + kv.snd.interval })
      else kv) }

/-- The data of a registered plugin that the registry operations inspect:
its identity, its `GetType()` value, whether the Go value also implements
the `NewsPlugin` interface, and whether its `Cleanup()` returns `nil`. -/
structure Plugin where
  id : String
  pluginType : String
  isNews : Bool
  cleanupOk : Bool
  deriving DecidableEq

/-- `Plugin.Cleanup()`: `none` models a `nil` error. -/
def cleanup (p : Plugin) : Option String :=
  if p.cleanupOk then none else some "cleanup failed"

/-- `PluginRegistry` (example_plugins.go, lines 440-443): both Go maps are
association lists in insertion order with unique keys. -/
structure PluginRegistry where
  plugins : List (String × Plugin)
  newsByType : List (String × List Plugin)
  deriving DecidableEq

/-- First-match lookup in the plugin map (`pr.plugins[id]`). -/
def lookupPlugin : List (String × Plugin) → String → Option Plugin
  | [], _ => none
  | kv :: rest, id => if kv.fst == id then some kv.snd else lookupPlugin rest id

/-- `delete(pr.plugins, id)` on an association list with unique keys:
removes the first binding of the key. -/
def eraseKey : List (String × Plugin) → String → List (String × Plugin)
  | [], _ => []
  | kv :: rest, id => if kv.fst == id then rest else kv :: eraseKey rest id

/-- `pr.newsByType[pluginType]`: a missing key reads as the empty slice. -/
def getNewsList : List (String × List Plugin) → String → List Plugin
  | [], _ => []
  | kv :: rest, ty => if kv.fst == ty then kv.snd else getNewsList rest ty

/-- `pr.newsByType[pluginType] = l`: replaces the binding, adding it if absent. -/
def setNewsList : List (String × List Plugin) → String → List Plugin → List (String × List Plugin)
  | [], ty, l => [(ty, l)]
  | kv :: rest, ty, l => if kv.fst == ty then (ty, l) :: rest else kv :: setNewsList rest ty l

/-- The removal loop of `UnregisterPlugin`: find the first plugin with the
given id, remove it, `break`. -/
def removeFirstById : List Plugin → String → List Plugin
  | [], _ => []
  | p :: rest, id => if p.id == id then rest else p :: removeFirstById rest id

/-- `PluginRegistry.UnregisterPlugin` (example_plugins.go, lines 507-533).
Returns the new registry and the returned error (`none` = `nil`).  Note the
source returns the cleanup error BEFORE deleting anything. -/
def unregisterPlugin (pr : PluginRegistry) (id : String) : PluginRegistry × Option String :=
  match lookupPlugin pr.plugins id with
  | none => (pr, some ("plugin with ID " ++ id ++ " not found"))
  | some plugin =>
    match cleanup plugin with
    | some e => (pr, some ("error cleaning up plugin " ++ id ++ ": " ++ e))
    | none =>
      let plugins2 := eraseKey pr.plugins id
      let newsByType2 :=
        if plugin.isNews then
          setNewsList pr.newsByType plugin.pluginType
            (removeFirstById (getNewsList pr.newsByType plugin.pluginType) id)
        else pr.newsByType
      ({ plugins := plugins2, newsByType := newsByType2 }, none)

/-- `PluginRegistry.GetPluginsByType` (example_plugins.go, lines 482-490).
The Go `range` over `pr.plugins` visits the stored plugins in an
unspecified order, so the iteration order is a parameter (any permutation
of the stored plugins). -/
def getPluginsByType (iter : List Plugin) (pluginType : String) : List Plugin :=
  iter.foldl (fun plugins p => if p.pluginType == pluginType then plugins ++ [p] else plugins) []

/-!
`PluginScheduler.checkAndExecuteTasks` / `executeTask` (example_plugins.go,
lines 709-737), projected onto a single task (tasks do not interact in the
per-tick loop, and the claimed invariant is per task name).  A tick at time
`now` dispatches `go ps.executeTask(task, now)` when `now ≥ NextRun`; the
update of `LastRun`/`NextRun` happens INSIDE the spawned goroutine, so it is
a separate `startExec` event that may be delayed arbitrarily after the
dispatch.  `pending` holds the dispatch times of goroutines whose timing
update has not run yet; `inFlight` counts dispatched, unfinished executions.
-/

/-- State of one scheduled plugin task together with its in-flight executions. -/
structure PluginTaskState where
  interval : Int
  lastRun : Int
  nextRun : Int
  pending : List Int
  inFlight : Nat
  deriving DecidableEq

/-- Events of the dispatcher model: a scheduler tick at time `now`, the start
of a dispatched `executeTask` goroutine (which performs the timing update),
and the completion of a started execution. -/
inductive SchedEvent where
  | tick (now : Int)
  | startExec
  | finishExec
  deriving DecidableEq

/-- One interleaving step of the dispatcher model. -/
def schedStep (s : PluginTaskState) (e : SchedEvent) : PluginTaskState :=
  match e with
  | .tick now =>
      if s.nextRun ≤ now then
        { s with pending := s.pending ++ [now], inFlight := s.inFlight + 1 }
      else s
  | .startExec =>
      match s.pending with
      | [] => s
      | now :: rest => { s with lastRun := now, nextRun := now + s.interval, pending := rest }
  | .finishExec =>
      if s.pending.length < s.inFlight then { s with inFlight := s.inFlight - 1 } else s

/-- Run a sequence of interleaving events. -/
def schedRun (s : PluginTaskState) (es : List SchedEvent) : PluginTaskState :=
  es.foldl schedStep s

/-- The outcome of one child source's `Fetch`: a non-nil error, or the
decoded `[]NewsItem` payload. -/
inductive FetchResult where
  | err
  | ok (items : List NewsItem)
  deriving DecidableEq

/-- A child source of the aggregate: its current tag and the outcome its
`Fetch` produces (the network being external, the outcome is data). -/
structure ChildState where
  currentTag : List Char
  fetchResult : FetchResult
  deriving DecidableEq

/-- `AggregateNewsPlugin`: the embedded `BaseNewsPlugin` contributes
`currentTag` and `lastData`; `sources` is the ordered child list. -/
structure AggState where
  currentTag : List Char
  lastData : List NewsItem
  sources : List ChildState
  deriving DecidableEq

/-- Does this child's `Fetch` fail? -/
def childFailed (s : ChildState) : Bool :=
  match s.fetchResult with
  | .err => true
  | .ok _ => false

/-- The accumulation half of the fetch loop of `AggregateNewsPlugin.Fetch`:
failed children contribute nothing (`continue`), successful payloads are
concatenated in child order. -/
def collectItems (sources : List ChildState) : List NewsItem :=
  sources.foldl (fun acc s =>
    match s.fetchResult with
    | FetchResult.err => acc
    | FetchResult.ok items => acc ++ items) []

/-- `AggregateNewsPlugin.Fetch` (unnamed part_002, lines 962-997).  The Go
loop does, per child: set the child's tag to the aggregate's tag, fetch,
skip on error, append items.  Since a child's recorded outcome is data, the
tag-setting half is the `map` and the accumulation half is `collectItems`;
the two halves commute child-wise.  If nothing was collected and a cached
aggregate exists the cache is returned, otherwise the merged list is
filtered, truncated to 12 and cached.  The function never produces
`FetchResult.err`: on the all-failed path the Go code returns a `nil` error. -/
def aggregateFetch (an : AggState) : AggState × FetchResult :=
  let sources := an.sources.map (fun s => { s with currentTag := an.currentTag })
  let allItems := collectItems sources
  let an2 : AggState := { an with sources := sources }
  if allItems.isEmpty && !an2.lastData.isEmpty then (an2, .ok an2.lastData)
  else
    let filtered := filterByCurrentTag an2.currentTag allItems
    let filtered2 := if 12 < filtered.length then filtered.take 12 else filtered
    ({ an2 with lastData := filtered2 }, .ok filtered2)

/-- `AggregateNewsPlugin.SetCurrentTag` (unnamed part_002, lines 999-1005):
sets the tag on the aggregate and on every child. -/
def aggSetCurrentTag (an : AggState) (tag : List Char) : AggState :=
  { an with currentTag := tag,
            sources := an.sources.map (fun s => { s with currentTag := tag }) }

/-- One hit of the Hacker News Algolia response (unnamed part_002). -/
structure HNHit where
  title : List Char
  url : List Char
  points : Int
  author : List Char
  createdAt : Int
  objectID : List Char
  deriving DecidableEq

/-- The outcome of the external steps of `HackerNewsPlugin.Fetch`: which
fallible step returned a non-nil error, or the decoded hits. -/
inductive HNOutcome where
  | errNewRequest
  | errDo
  | errRead
  | errUnmarshal
  | ok (hits : List HNHit)
  deriving DecidableEq

/-- The fields of `HackerNewsPlugin` (via `BaseNewsPlugin`) that `Fetch`
reads or writes. -/
structure HNState where
  currentTag : List Char
  lastData : List NewsItem
  deriving DecidableEq

/-- `HackerNewsPlugin.Fetch` (unnamed part_002, lines 736-802).  Result is
(new plugin state, returned value, returned-error-is-non-nil).  Every error
path is `return hn.lastData, err`; only the success path assigns
`hn.lastData = filtered`. -/
def hnFetch (hn : HNState) (outcome : HNOutcome) : HNState × List NewsItem × Bool :=
  match outcome with
  | .errNewRequest => (hn, hn.lastData, true)
  | .errDo => (hn, hn.lastData, true)
  | .errRead => (hn, hn.lastData, true)
  | .errUnmarshal => (hn, hn.lastData, true)
  | .ok hits =>
    let items := hits.foldl (fun acc hit =>
      if hit.url == [] || hit.title == [] then acc
      else acc ++ [{ title := hit.title, url := hit.url, points := hit.points,
                     author := hit.author, createdAt := hit.createdAt,
                     objectID := hit.objectID, source := "hackernews".toList,
                     description := [], tags := [] }]) []
    let filtered := filterByCurrentTag hn.currentTag items
    let filtered2 := if 10 < filtered.length then filtered.take 10 else filtered
    ({ hn with lastData := filtered2 }, filtered2, false)

/-- A label of a GitHub issue (example_plugins.go). -/
structure GHLabel where
  name : List Char
  color : List Char
  deriving DecidableEq

/-- `GitHubIssue` (example_plugins.go, lines 27-42). -/
structure GitHubIssue where
  issueId : Int
  number : Int
  title : List Char
  htmlURL : List Char
  state : List Char
  userLogin : List Char
  createdAt : List Char
  updatedAt : List Char
  labels : List GHLabel
  deriving DecidableEq

/-- The outcome of the external steps of `GitHubPlugin.Fetch`. -/
inductive GHOutcome where
  | errNewRequest
  | errDo
  | errStatus
  | errRead
  | errUnmarshal
  | ok (issues : List GitHubIssue)
  deriving DecidableEq

/-- The fields of `GitHubPlugin` that `Fetch` reads or writes. -/
structure GHState where
  apiToken : List Char
  repository : List Char
  lastData : List GitHubIssue
  deriving DecidableEq

/-- `GitHubPlugin.Fetch` (example_plugins.go, lines 82-122).  An empty
`repository` errors before any external step; every error path is
`return gp.lastData, err`; only the success path assigns
`gp.lastData = issues`. -/
def ghFetch (gp : GHState) (outcome : GHOutcome) : GHState × List GitHubIssue × Bool :=
  if gp.repository == [] then (gp, gp.lastData, true)
  else
    match outcome with
    | .errNewRequest => (gp, gp.lastData, true)
    | .errDo => (gp, gp.lastData, true)
    | .errStatus => (gp, gp.lastData, true)
    | .errRead => (gp, gp.lastData, true)
    | .errUnmarshal => (gp, gp.lastData, true)
    | .ok issues => ({ gp with lastData := issues }, issues, false)

/-! ### Concrete states used by the theorems -/

/-- A freshly due task: dispatch at `now = 0` with a 10-unit interval. -/
def dispatchInit : PluginTaskState :=
  { interval := 10, lastRun := 0, nextRun := 0, pending := [], inFlight := 0 }

/-- A news plugin whose `Cleanup()` returns an error. -/
def plugBad : Plugin := { id := "p", pluginType := "news", isNews := true, cleanupOk := false }

/-- A registry holding `plugBad` in both indexes. -/
def regTwoIdx : PluginRegistry :=
  { plugins := [("p", plugBad)], newsByType := [("news", [plugBad])] }

/-- An aggregate with a single failing child and no cached result. -/
def aggNoCache : AggState :=
  { currentTag := "all".toList, lastData := [],
    sources := [{ currentTag := "all".toList, fetchResult := .err }] }

/-- A task added first, due at 100. -/
def taskAdded1 : Task := { id := "A", interval := 5, lastRun := 0, nextRun := 100 }

/-- A task added second, due at the same instant 100. -/
def taskAdded2 : Task := { id := "B", interval := 7, lastRun := 0, nextRun := 100 }

/-- A task used for the `UpdateTask` counterexample. -/
def taskMark : Task := { id := "a", interval := 10, lastRun := 0, nextRun := 10 }

/-- A scheduler holding only `taskMark`. -/
def schedMark : Scheduler := { tasks := [("a", taskMark)] }

/-- An item whose own tag strictly contains the active tag `"golang"`. -/
def itemTaggedGo : NewsItem :=
  { title := "x".toList, url := [], points := 0, author := [], createdAt := 0,
    objectID := [], source := [], description := [], tags := ["golang-news".toList] }

/-- A news plugin registered first. -/
def plugFirstNews : Plugin :=
  { id := "hackernews", pluginType := "news", isNews := true, cleanupOk := true }

/-- A news plugin registered second. -/
def plugSecondNews : Plugin :=
  { id := "devto", pluginType := "news", isNews := true, cleanupOk := true }

/-- The item `title: "golang news"` of the spec's filtering example. -/
def itemGolangNews : NewsItem :=
  { title := "golang news".toList, url := [], points := 0, author := [], createdAt := 0,
    objectID := [], source := [], description := [], tags := [] }

/-- The item `title: "python"` of the spec's filtering example. -/
def itemPython : NewsItem :=
  { title := "python".toList, url := [], points := 0, author := [], createdAt := 0,
    objectID := [], source := [], description := [], tags := [] }

/-- A sample cached news item. -/
def itemSample : NewsItem :=
  { title := "cached".toList, url := "u".toList, points := 1, author := [], createdAt := 0,
    objectID := [], source := [], description := [], tags := [] }

/-- A news plugin whose `Cleanup()` succeeds. -/
def plugGood : Plugin := { id := "q", pluginType := "news", isNews := true, cleanupOk := true }

/-- A registry holding `plugGood` in both indexes. -/
def regGood : PluginRegistry :=
  { plugins := [("q", plugGood)], newsByType := [("news", [plugGood])] }

/-- An aggregate with a single failing child and a cached result. -/
def aggCached : AggState :=
  { currentTag := "all".toList, lastData := [itemSample],
    sources := [{ currentTag := "all".toList, fetchResult := .err }] }

/-- The widget manager of the spec's tag-cycling example: configured tags
`["a", "b"]`, starting at the leading `"All"` sentinel. -/
def wmAB : WidgetManager := { newsTags := ["a", "b"], newsTagIndex := 0 }

/-- A Hacker News plugin state with a cached result. -/
def hnSample : HNState := { currentTag := "all".toList, lastData := [itemSample] }

/-- A GitHub plugin state with a configured repository. -/
def ghSample : GHState := { apiToken := [], repository := "o/r".toList, lastData := [] }

/-! ### Helper lemmas -/

/-- A fold that conditionally appends single elements is a filter. -/
theorem foldl_keep_eq_filter {α : Type} (p : α → Bool) :
    ∀ (l acc : List α),
      l.foldl (fun r x => if p x then r ++ [x] else r) acc = acc ++ l.filter p := by
  intro l
  induction l with
  | nil => intro acc; simp
  | cons x l ih =>
    intro acc
    cases hpx : p x with
    | true => simp [List.foldl_cons, hpx, ih, List.filter_cons]
    | false => simp [List.foldl_cons, hpx, ih, List.filter_cons]

/-- `collectItems` of an all-failed child list collects nothing (generalized
over the accumulator). -/
theorem foldl_collect_failed :
    ∀ (l : List ChildState) (acc : List NewsItem), l.all childFailed = true →
      l.foldl (fun acc s =>
        match s.fetchResult with
        | FetchResult.err => acc
        | FetchResult.ok items => acc ++ items) acc = acc := by
  intro l
  induction l with
  | nil => intro acc _; rfl
  | cons s rest ih =>
    intro acc h
    simp only [List.all_cons, Bool.and_eq_true] at h
    have hs : s.fetchResult = FetchResult.err := by
      cases hf : s.fetchResult
      · rfl
      · simp [childFailed, hf] at h
    simp only [List.foldl_cons, hs]
    exact ih acc h.2

/-- `collectItems` of an all-failed child list is empty. -/
theorem collectItems_all_failed (l : List ChildState) (h : l.all childFailed = true) :
    collectItems l = [] :=
  foldl_collect_failed l [] h

/-- Setting every child's tag does not change which children failed. -/
theorem all_failed_map_tag (t : List Char) :
    ∀ (l : List ChildState),
      (l.map (fun s => { s with currentTag := t })).all childFailed = l.all childFailed := by
  intro l
  induction l with
  | nil => rfl
  | cons s rest ih =>
    simp only [List.map_cons, List.all_cons, ih]
    rfl

/-- After setting every child's tag to `t`, every child's tag is `t`. -/
theorem all_tag_set (t : List Char) :
    ∀ (l : List ChildState),
      (l.map (fun s => { s with currentTag := t })).all (fun s => s.currentTag == t) = true := by
  intro l
  induction l with
  | nil => rfl
  | cons s rest ih => simp [List.all_cons, ih]

/-- The tag filter of the empty item list is empty. -/
theorem filterByCurrentTag_nil (ct : List Char) : filterByCurrentTag ct [] = [] := by
  unfold filterByCurrentTag
  split <;> rfl

/-- Folding `chooseNext` from a seed task yields a task of the seed-or-list
that is a lower bound on `nextRun` for the seed and for the whole list. -/
theorem foldl_chooseNext_min :
    ∀ (l : List Task) (a : Task),
      ∃ r, l.foldl chooseNext (some a) = some r ∧ (r = a ∨ r ∈ l) ∧
        r.nextRun ≤ a.nextRun ∧ ∀ u ∈ l, r.nextRun ≤ u.nextRun := by
  intro l
  induction l with
  | nil =>
    intro a
    exact ⟨a, rfl, Or.inl rfl, le_refl _, by simp⟩
  | cons t l ih =>
    intro a
    by_cases h : t.nextRun < a.nextRun
    · obtain ⟨r, hr, hmem, hle, hall⟩ := ih t
      refine ⟨r, ?_, ?_, le_trans hle (le_of_lt h), ?_⟩
      · simpa [List.foldl_cons, chooseNext, h] using hr
      · rcases hmem with h1 | h1
        · exact Or.inr (by simp [h1])
        · exact Or.inr (List.mem_cons_of_mem _ h1)
      · intro u hu
        rcases List.mem_cons.mp hu with h1 | h1
        · rw [h1]; exact hle
        · exact hall u h1
    · obtain ⟨r, hr, hmem, hle, hall⟩ := ih a
      refine ⟨r, ?_, ?_, hle, ?_⟩
      · simpa [List.foldl_cons, chooseNext, h] using hr
      · rcases hmem with h1 | h1
        · exact Or.inl h1
        · exact Or.inr (List.mem_cons_of_mem _ h1)
      · intro u hu
        rcases List.mem_cons.mp hu with h1 | h1
        · rw [h1]; exact le_trans hle (not_lt.mp h)
        · exact hall u h1

/-- Updating the task bound to `id` is visible through first-match lookup. -/
theorem lookupTask_map_update (id : String) (n1 n2 : Int) :
    ∀ (l : List (String × Task)) (t : Task),
      lookupTask l id = some t →
      lookupTask (l.map (fun kv =>
          if kv.fst == id then
            (kv.fst, { kv.snd with lastRun := n1, nextRun := n2 + kv.snd.interval })
          else kv)) id = some { t with lastRun := n1, nextRun := n2 + t.interval } := by
  intro l
  induction l with
  | nil =>
    intro t h
    simp [lookupTask] at h
  | cons kv rest ih =>
    intro t h
    cases hk : (kv.fst == id) with
    | true =>
      simp [lookupTask, hk] at h
      simp [List.map_cons, lookupTask, hk, h]
    | false =>
      have h2 : lookupTask rest id = some t := by simpa [lookupTask, hk] using h
      rw [List.map_cons]
      simp only [hk, Bool.false_eq_true, if_false, lookupTask]
      exact ih t h2

/-- Iterating `CycleNewsTag` advances the index additively modulo
`N + 1`, for any in-range starting index and non-empty tag list. -/
theorem cycle_iterate :
    ∀ (k : Nat) (wm : WidgetManager), 0 < wm.newsTags.length →
      wm.newsTagIndex < wm.newsTags.length + 1 →
      cycleNewsTag^[k] wm =
        { wm with newsTagIndex := (wm.newsTagIndex + k) % (wm.newsTags.length + 1) } := by
  intro k
  induction k with
  | zero =>
    intro wm hlen hidx
    obtain ⟨tags, idx⟩ := wm
    simp only [Function.iterate_zero, id_eq]
    simp [Nat.mod_eq_of_lt hidx]
  | succ k ih =>
    intro wm hlen hidx
    rw [Function.iterate_succ_apply]
    have hcyc : cycleNewsTag wm =
        { wm with newsTagIndex := (wm.newsTagIndex + 1) % (wm.newsTags.length + 1) } := by
      simp [cycleNewsTag, hlen]
    rw [hcyc]
    have hidx2 : (wm.newsTagIndex + 1) % (wm.newsTags.length + 1) < wm.newsTags.length + 1 :=
      Nat.mod_lt _ (Nat.succ_pos _)
    rw [ih { wm with newsTagIndex := (wm.newsTagIndex + 1) % (wm.newsTags.length + 1) } hlen hidx2]
    obtain ⟨tags, idx⟩ := wm
    simp only [WidgetManager.mk.injEq, true_and]
    rw [Nat.mod_add_mod]
    congr 1
    omega

/-- Lookup misses when the key is bound nowhere. -/
theorem lookupPlugin_eq_none (id : String) :
    ∀ (l : List (String × Plugin)), id ∉ l.map Prod.fst → lookupPlugin l id = none := by
  intro l
  induction l with
  | nil => intro _; rfl
  | cons kv rest ih =>
    intro h
    simp only [List.map_cons, List.mem_cons, not_or] at h
    have hk : (kv.fst == id) = false := by
      simp only [beq_eq_false_iff_ne, ne_eq]
      exact fun e => h.1 e.symm
    simp [lookupPlugin, hk, ih h.2]

/-- With unique keys, erasing a key makes its lookup miss. -/
theorem lookupPlugin_eraseKey (id : String) :
    ∀ (l : List (String × Plugin)), (l.map Prod.fst).Nodup →
      lookupPlugin (eraseKey l id) id = none := by
  intro l
  induction l with
  | nil => intro _; rfl
  | cons kv rest ih =>
    intro hnd
    simp only [List.map_cons, List.nodup_cons] at hnd
    by_cases hk : kv.fst = id
    · have hkb : (kv.fst == id) = true := by simp [hk]
      simp only [eraseKey, hkb, if_true]
      refine lookupPlugin_eq_none id rest ?_
      rw [← hk]
      exact hnd.1
    · have hkb : (kv.fst == id) = false := by simp [hk]
      simp only [eraseKey, hkb, Bool.false_eq_true, if_false]
      simp only [lookupPlugin, hkb, Bool.false_eq_true, if_false]
      exact ih hnd.2

/-- Reading back the category list just written. -/
theorem getNewsList_setNewsList (ty : String) (l : List Plugin) :
    ∀ (m : List (String × List Plugin)), getNewsList (setNewsList m ty l) ty = l := by
  intro m
  induction m with
  | nil => simp [setNewsList, getNewsList]
  | cons kv rest ih =>
    by_cases hk : kv.fst = ty
    · have hkb : (kv.fst == ty) = true := by simp [hk]
      simp [setNewsList, getNewsList, hkb]
    · have hkb : (kv.fst == ty) = false := by simp [hk]
      simp only [setNewsList, hkb, Bool.false_eq_true, if_false]
      simp only [getNewsList, hkb, Bool.false_eq_true, if_false]
      exact ih

/-- If a plugin id occurs at most once in a list, removing its first
occurrence leaves no plugin with that id. -/
theorem removeFirstById_no_id (id : String) :
    ∀ (l : List Plugin), l.countP (fun q => q.id == id) ≤ 1 →
      ∀ q ∈ removeFirstById l id, ¬ q.id = id := by
  intro l
  induction l with
  | nil =>
    intro _ q hq
    simp [removeFirstById] at hq
  | cons p rest ih =>
    intro hc q hq
    by_cases hp : p.id = id
    · have hpb : (p.id == id) = true := by simp [hp]
      have hqr : q ∈ rest := by simpa [removeFirstById, hpb] using hq
      have h0 : rest.countP (fun q => q.id == id) = 0 := by
        rw [List.countP_cons] at hc
        simp only [hpb, if_true] at hc
        omega
      have hnone := List.countP_eq_zero.mp h0 q hqr
      simpa using hnone
    · have hpb : (p.id == id) = false := by simp [hp]
      have hc2 : rest.countP (fun q => q.id == id) ≤ 1 := by
        rw [List.countP_cons] at hc
        simp only [hpb, Bool.false_eq_true, if_false] at hc
        omega
      rcases List.mem_cons.mp (by simpa [removeFirstById, hpb] using hq) with h1 | h1
      · rw [h1]; exact hp
      · exact ih hc2 q h1

/-! ### Claim C1 -/

/-- Claim C1 states that a task never has two overlapping executions in
flight because `next-run` is advanced synchronously before the asynchronous
fetch is dispatched.  In the source the advancement happens INSIDE the
spawned `executeTask` goroutine: after a tick at 0 dispatches the due task
(`nextRun = 0`), a second tick at 1 arriving before the goroutine has run
its timing update sees the task still due and dispatches it again, so two
executions of the same task are in flight at once. -/
theorem claim_C1_overlap_eval :
    (schedRun dispatchInit [SchedEvent.tick 0, SchedEvent.tick 1]).inFlight = 2 ∧
    ¬ (schedRun dispatchInit [SchedEvent.tick 0, SchedEvent.tick 1]).inFlight ≤ 1 := by
  decide

/-! ### Claim C2 -/

/-- Claim C2 (counterexample): `UnregisterPlugin` on a plugin whose
`Cleanup` errors returns the error WITHOUT removing anything: the registry
is unchanged and the plugin is still findable in both indexes, contrary to
the claim that the removal still completes. -/
theorem claim_C2_counterexample :
    (unregisterPlugin regTwoIdx "p").snd.isSome = true ∧
    (unregisterPlugin regTwoIdx "p").fst = regTwoIdx ∧
    lookupPlugin (unregisterPlugin regTwoIdx "p").fst.plugins "p" = some plugBad ∧
    getNewsList (unregisterPlugin regTwoIdx "p").fst.newsByType "news" = [plugBad] := by
  decide

/-- Claim C2 (amended): `UnregisterPlugin` removes the plugin from both the
main identity index and the category index ONLY when `Cleanup` succeeds;
when `Cleanup` returns an error, the wrapped error is returned and the
registry is left unchanged, the plugin still registered and findable. -/
theorem claim_C2_amended : ∀ (pr : PluginRegistry) (id : String) (p : Plugin),
    lookupPlugin pr.plugins id = some p →
    (pr.plugins.map Prod.fst).Nodup →
    (getNewsList pr.newsByType p.pluginType).countP (fun q => q.id == id) ≤ 1 →
    (p.cleanupOk = false →
        unregisterPlugin pr id =
          (pr, some ("error cleaning up plugin " ++ id ++ ": " ++ "cleanup failed"))) ∧
    (p.cleanupOk = true →
        (unregisterPlugin pr id).snd = none ∧
        lookupPlugin (unregisterPlugin pr id).fst.plugins id = none ∧
        (p.isNews = true →
          ∀ q ∈ getNewsList (unregisterPlugin pr id).fst.newsByType p.pluginType,
            ¬ q.id = id)) := by
  intro pr id p hlook hnd hcount
  constructor
  · intro hbad
    simp [unregisterPlugin, hlook, cleanup, hbad]
  · intro hok
    have hclean : cleanup p = none := by simp [cleanup, hok]
    refine ⟨?_, ?_, ?_⟩
    · simp [unregisterPlugin, hlook, hclean]
    · simp only [unregisterPlugin, hlook, hclean]
      exact lookupPlugin_eraseKey id pr.plugins hnd
    · intro hn q hq
      simp only [unregisterPlugin, hlook, hclean, hn, if_true] at hq
      rw [getNewsList_setNewsList] at hq
      exact removeFirstById_no_id id (getNewsList pr.newsByType p.pluginType) hcount q hq

/-- Claim C2 (witness): the amended behavior at a concrete registry whose
plugin's `Cleanup` succeeds. -/
theorem claim_C2_witness :
    (plugGood.cleanupOk = false →
        unregisterPlugin regGood "q" =
          (regGood, some ("error cleaning up plugin " ++ "q" ++ ": " ++ "cleanup failed"))) ∧
    (plugGood.cleanupOk = true →
        (unregisterPlugin regGood "q").snd = none ∧
        lookupPlugin (unregisterPlugin regGood "q").fst.plugins "q" = none ∧
        (plugGood.isNews = true →
          ∀ q ∈ getNewsList (unregisterPlugin regGood "q").fst.newsByType plugGood.pluginType,
            ¬ q.id = "q")) :=
  claim_C2_amended regGood "q" plugGood (by decide) (by decide) (by decide)

/-! ### Claim C3 -/

/-- Claim C3 (counterexample): with every child failing and no cached
aggregate, `AggregateNewsPlugin.Fetch` does NOT return an error — it
returns an empty item list with a `nil` error. -/
theorem claim_C3_counterexample :
    (aggregateFetch aggNoCache).snd = FetchResult.ok [] ∧
    (aggregateFetch aggNoCache).snd ≠ FetchResult.err := by
  decide

/-- Claim C3 (amended): when every child's `Fetch` fails, the aggregate's
`Fetch` never returns an error: with a prior cached aggregate it returns
the cached result (leaving the cache unchanged), and with no cached
aggregate it returns the empty item list with a `nil` error. -/
theorem claim_C3_amended : ∀ (an : AggState),
    an.sources.all childFailed = true →
    (an.lastData.isEmpty = false →
        aggregateFetch an =
          ({ an with sources := an.sources.map (fun s => { s with currentTag := an.currentTag }) },
           FetchResult.ok an.lastData)) ∧
    (an.lastData.isEmpty = true →
        (aggregateFetch an).snd = FetchResult.ok [] ∧
        (aggregateFetch an).fst.lastData = []) := by
  intro an hall
  have hcoll : collectItems (an.sources.map (fun s => { s with currentTag := an.currentTag })) = [] :=
    collectItems_all_failed _ (by rw [all_failed_map_tag]; exact hall)
  constructor
  · intro hcache
    simp [aggregateFetch, hcoll, hcache]
  · intro hempty
    constructor <;> simp [aggregateFetch, hcoll, hempty, filterByCurrentTag_nil]

/-- Claim C3 (witness): the cached-fallback branch at a concrete aggregate
whose only child fails but whose cache is non-empty. -/
theorem claim_C3_witness :
    (aggCached.lastData.isEmpty = false →
        aggregateFetch aggCached =
          ({ aggCached with
              sources := aggCached.sources.map (fun s => { s with currentTag := aggCached.currentTag }) },
           FetchResult.ok aggCached.lastData)) ∧
    (aggCached.lastData.isEmpty = true →
        (aggregateFetch aggCached).snd = FetchResult.ok [] ∧
        (aggregateFetch aggCached).fst.lastData = []) :=
  claim_C3_amended aggCached (by decide)

/-! ### Claim C4 -/

/-- Claim C4 (counterexample): `taskAdded1` was inserted before
`taskAdded2` and both are due at the same instant; the map iteration order
`[taskAdded2, taskAdded1]` is a permutation of the stored tasks, and on it
`GetNextTask` returns `taskAdded2`, not the earliest-added `taskAdded1` —
the tie-break claimed by the spec does not hold for Go's unspecified map
iteration order. -/
theorem claim_C4_counterexample :
    taskAdded1.nextRun = taskAdded2.nextRun ∧
    List.Perm [taskAdded2, taskAdded1] [taskAdded1, taskAdded2] ∧
    getNextTask [taskAdded2, taskAdded1] = some taskAdded2 ∧
    taskAdded2 ≠ taskAdded1 := by
  refine ⟨rfl, List.Perm.swap taskAdded1 taskAdded2 [], by decide, by decide⟩

/-- Claim C4 (amended): for every non-empty iteration order of the stored
tasks, `GetNextTask` returns a stored task whose `next-run` is minimal
among all tasks; which task is returned when several tie depends on the
unspecified map iteration order, not on insertion order. -/
theorem claim_C4_amended : ∀ (iter : List Task), iter ≠ [] →
    ∃ r, getNextTask iter = some r ∧ r ∈ iter ∧ ∀ u ∈ iter, r.nextRun ≤ u.nextRun := by
  intro iter hne
  cases iter with
  | nil => exact absurd rfl hne
  | cons t rest =>
    obtain ⟨r, hr, hmem, hle, hall⟩ := foldl_chooseNext_min rest t
    refine ⟨r, ?_, ?_, ?_⟩
    · simpa [getNextTask, List.foldl_cons, chooseNext] using hr
    · rcases hmem with h1 | h1
      · simp [h1]
      · exact List.mem_cons_of_mem _ h1
    · intro u hu
      rcases List.mem_cons.mp hu with h1 | h1
      · rw [h1]; exact hle
      · exact hall u h1

/-- Claim C4 (witness): the minimality guarantee at a concrete two-task
iteration order. -/
theorem claim_C4_witness :
    ∃ r, getNextTask [taskAdded1, taskAdded2] = some r ∧ r ∈ [taskAdded1, taskAdded2] ∧
      ∀ u ∈ [taskAdded1, taskAdded2], r.nextRun ≤ u.nextRun :=
  claim_C4_amended [taskAdded1, taskAdded2] (by decide)

/-! ### Claim C5 -/

/-- Claim C5 (counterexample): `UpdateTask` reads `time.Now()` twice.  With
the first reading 0 and the second 1 (the clock advanced between the two
calls), the task ends with `last-run = 0` and `next-run = 11`, so
`next-run = last-run + interval` (`11 = 10`) fails: the claimed exact
equality does not hold. -/
theorem claim_C5_counterexample :
    lookupTask (updateTask schedMark "a" 0 1).tasks "a" =
      some { id := "a", interval := 10, lastRun := 0, nextRun := 11 } ∧
    ¬ ((11 : Int) = 0 + 10) := by
  decide

/-- Claim C5 (amended): after `UpdateTask` on an existing task, the task's
`last-run` equals the FIRST `time.Now()` reading of the call and its
`next-run` equals the SECOND reading plus the interval; `next-run =
last-run + interval` holds exactly iff the two clock readings coincide. -/
theorem claim_C5_amended : ∀ (s : Scheduler) (id : String) (n1 n2 : Int) (t : Task),
    lookupTask s.tasks id = some t →
    lookupTask (updateTask s id n1 n2).tasks id =
      some { t with lastRun := n1, nextRun := n2 + t.interval } ∧
    (n2 + t.interval = n1 + t.interval ↔ n1 = n2) := by
  intro s id n1 n2 t h
  constructor
  · exact lookupTask_map_update id n1 n2 s.tasks t h
  · omega

/-- Claim C5 (witness): the update equations at a concrete scheduler, with
coinciding clock readings 0 and 0. -/
theorem claim_C5_witness :
    (lookupTask (updateTask schedMark "a" 0 0).tasks "a" =
      some { taskMark with lastRun := 0, nextRun := 0 + taskMark.interval } ∧
     ((0 : Int) + taskMark.interval = 0 + taskMark.interval ↔ (0 : Int) = 0)) :=
  claim_C5_amended schedMark "a" 0 0 taskMark (by decide)

/-! ### Claim C6 -/

/-- Claim C6 (counterexample): the claim says an item is kept if any of its
own tags case-insensitively CONTAINS the active tag as a substring.  The
code compares tags by case-insensitive EQUALITY: the item with tag
`"golang-news"` matches the claimed predicate for active tag `"golang"` but
is dropped by `filterByCurrentTag`. -/
theorem claim_C6_counterexample :
    specMatchByTag "golang".toList itemTaggedGo = true ∧
    filterByCurrentTag "golang".toList [itemTaggedGo] = [] := by
  decide

/-- Claim C6 (amended): when the active tag is the sentinel `"all"` or
empty every item passes unfiltered; otherwise an item is kept iff its title
or its description case-insensitively contains the active tag as a
substring, or one of its own tags is case-insensitively EQUAL to the active
tag; in particular for items `{title: "golang news"}` and `{title:
"python"}` with active tag `"golang"` the filter yields exactly the first
item. -/
theorem claim_C6_amended :
    (∀ items, filterByCurrentTag "all".toList items = items) ∧
    (∀ items, filterByCurrentTag [] items = items) ∧
    (∀ ct items, (ct == "all".toList || ct == List.nil) = false →
        filterByCurrentTag ct items = items.filter (fun item =>
          containsSub (lowerStr item.title) (lowerStr ct) ||
          containsSub (lowerStr item.description) (lowerStr ct) ||
          item.tags.any (fun tag => lowerStr tag == lowerStr ct))) ∧
    filterByCurrentTag "golang".toList [itemGolangNews, itemPython] = [itemGolangNews] := by
  refine ⟨?_, ?_, ?_, by decide⟩
  · intro items
    simp [filterByCurrentTag]
  · intro items
    simp [filterByCurrentTag]
  · intro ct items h
    unfold filterByCurrentTag
    rw [h]
    simpa using foldl_keep_eq_filter (fun item =>
      containsSub (lowerStr item.title) (lowerStr ct) ||
      containsSub (lowerStr item.description) (lowerStr ct) ||
      item.tags.any (fun tag => lowerStr tag == lowerStr ct)) items []

/-- Claim C6 (witness): the filter characterization applied to the active
tag `"golang"` on the spec's two example items. -/
theorem claim_C6_witness :
    filterByCurrentTag "golang".toList [itemGolangNews, itemPython] =
      [itemGolangNews, itemPython].filter (fun item =>
        containsSub (lowerStr item.title) (lowerStr "golang".toList) ||
        containsSub (lowerStr item.description) (lowerStr "golang".toList) ||
        item.tags.any (fun tag => lowerStr tag == lowerStr "golang".toList)) :=
  claim_C6_amended.2.2.1 "golang".toList [itemGolangNews, itemPython] (by decide)

/-! ### Claim C9 -/

/-- Claim C9 (counterexample): `plugFirstNews` was registered before
`plugSecondNews`; the map iteration order `[plugSecondNews, plugFirstNews]`
is a permutation of the stored plugins, and on it `GetPluginsByType`
returns the two matching plugins in iteration order, not insertion order. -/
theorem claim_C9_counterexample :
    List.Perm [plugSecondNews, plugFirstNews] [plugFirstNews, plugSecondNews] ∧
    getPluginsByType [plugSecondNews, plugFirstNews] "news" = [plugSecondNews, plugFirstNews] ∧
    [plugSecondNews, plugFirstNews] ≠ [plugFirstNews, plugSecondNews] := by
  refine ⟨List.Perm.swap plugFirstNews plugSecondNews [], by decide, by decide⟩

/-- Claim C9 (amended): `GetPluginsByType` returns exactly the registered
plugins (taggable or not) whose type matches the requested one, in the
order the Go map iteration happens to visit them — which is unspecified,
not insertion order. -/
theorem claim_C9_amended : ∀ (iter : List Plugin) (ty : String),
    getPluginsByType iter ty = iter.filter (fun p => p.pluginType == ty) := by
  intro iter ty
  have h := foldl_keep_eq_filter (fun p => p.pluginType == ty) iter []
  simpa only [getPluginsByType, List.nil_append] using h

/-! ### Claim C7 -/

/-- Claim C7: tag cycling is a pure function over the configured tag list
with an implicit leading `"All"` sentinel at index 0, advancing the index
modulo `N + 1`: cycling `N + 1` times from any reachable state returns to
that state (hence to its starting tag), and with configured tags
`["a", "b"]` repeated cycling visits All, a, b, All. -/
theorem claim_C7_theorem : ∀ (wm : WidgetManager),
    0 < wm.newsTags.length → wm.newsTagIndex ≤ wm.newsTags.length →
    (cycleNewsTag^[wm.newsTags.length + 1] wm = wm ∧
     getCurrentNewsTag (cycleNewsTag^[wm.newsTags.length + 1] wm) = getCurrentNewsTag wm) ∧
    (getCurrentNewsTag wmAB = "All" ∧
     getCurrentNewsTag (cycleNewsTag wmAB) = "a" ∧
     getCurrentNewsTag (cycleNewsTag (cycleNewsTag wmAB)) = "b" ∧
     getCurrentNewsTag (cycleNewsTag (cycleNewsTag (cycleNewsTag wmAB))) = "All") := by
  intro wm hlen hidx
  have hround : cycleNewsTag^[wm.newsTags.length + 1] wm = wm := by
    rw [cycle_iterate _ wm hlen (Nat.lt_succ_of_le hidx)]
    have hmod : (wm.newsTagIndex + (wm.newsTags.length + 1)) % (wm.newsTags.length + 1) =
        wm.newsTagIndex := by
      rw [Nat.add_mod_right]
      exact Nat.mod_eq_of_lt (Nat.lt_succ_of_le hidx)
    rw [hmod]
  exact ⟨⟨hround, by rw [hround]⟩, by decide, by decide, by decide, by decide⟩

/-- Claim C7 (witness): the round trip at the spec's concrete example
state (tags `["a", "b"]`, index 0). -/
theorem claim_C7_witness :
    (cycleNewsTag^[wmAB.newsTags.length + 1] wmAB = wmAB ∧
     getCurrentNewsTag (cycleNewsTag^[wmAB.newsTags.length + 1] wmAB) = getCurrentNewsTag wmAB) ∧
    (getCurrentNewsTag wmAB = "All" ∧
     getCurrentNewsTag (cycleNewsTag wmAB) = "a" ∧
     getCurrentNewsTag (cycleNewsTag (cycleNewsTag wmAB)) = "b" ∧
     getCurrentNewsTag (cycleNewsTag (cycleNewsTag (cycleNewsTag wmAB))) = "All") :=
  claim_C7_theorem wmAB (by decide) (by decide)

/-! ### Claim C8 -/

/-- Claim C8: for both modelled plugins, when `Fetch` returns an error the
plugin state — in particular its `lastData` cache slot — is unchanged and
the cached value is what is returned as the fallback; the slot is written
only on the success path. -/
theorem claim_C8_theorem :
    (∀ (hn : HNState) (o : HNOutcome),
        (hnFetch hn o).snd.snd = true →
        (hnFetch hn o).fst = hn ∧ (hnFetch hn o).snd.fst = hn.lastData) ∧
    (∀ (gp : GHState) (o : GHOutcome),
        (ghFetch gp o).snd.snd = true →
        (ghFetch gp o).fst = gp ∧ (ghFetch gp o).snd.fst = gp.lastData) ∧
    (∀ (hn : HNState) (hits : List HNHit),
        (hnFetch hn (HNOutcome.ok hits)).snd.snd = false ∧
        (hnFetch hn (HNOutcome.ok hits)).fst.lastData = (hnFetch hn (HNOutcome.ok hits)).snd.fst) ∧
    (∀ (gp : GHState) (issues : List GitHubIssue),
        (gp.repository == []) = false →
        ghFetch gp (GHOutcome.ok issues) = ({ gp with lastData := issues }, issues, false)) := by
  refine ⟨?_, ?_, ?_, ?_⟩
  · intro hn o h
    cases o with
    | ok hits => simp [hnFetch] at h
    | errNewRequest => exact ⟨rfl, rfl⟩
    | errDo => exact ⟨rfl, rfl⟩
    | errRead => exact ⟨rfl, rfl⟩
    | errUnmarshal => exact ⟨rfl, rfl⟩
  · intro gp o h
    by_cases hrep : (gp.repository == []) = true
    · constructor <;> simp [ghFetch, hrep]
    · rw [Bool.not_eq_true] at hrep
      cases o with
      | ok issues => simp [ghFetch, hrep] at h
      | errNewRequest => constructor <;> simp [ghFetch, hrep]
      | errDo => constructor <;> simp [ghFetch, hrep]
      | errStatus => constructor <;> simp [ghFetch, hrep]
      | errRead => constructor <;> simp [ghFetch, hrep]
      | errUnmarshal => constructor <;> simp [ghFetch, hrep]
  · intro hn hits
    exact ⟨rfl, rfl⟩
  · intro gp issues hrep
    simp [ghFetch, hrep]

/-- Claim C8 (witness): concrete failing fetches leave the concrete cached
slots untouched and return them. -/
theorem claim_C8_witness :
    ((hnFetch hnSample HNOutcome.errDo).fst = hnSample ∧
     (hnFetch hnSample HNOutcome.errDo).snd.fst = hnSample.lastData) ∧
    ((ghFetch ghSample GHOutcome.errStatus).fst = ghSample ∧
     (ghFetch ghSample GHOutcome.errStatus).snd.fst = ghSample.lastData) :=
  ⟨claim_C8_theorem.1 hnSample HNOutcome.errDo rfl,
   claim_C8_theorem.2.1 ghSample GHOutcome.errStatus (by decide)⟩

/-! ### Claim C10 -/

/-- Claim C10: after `AggregateNewsPlugin.SetCurrentTag(t)` the aggregate's
own tag is `t` and every child's tag is `t`; and `Fetch` re-propagates the
aggregate's current tag to every child before fetching, so after a fetch
the aggregate and all children agree on the active tag. -/
theorem claim_C10_theorem : ∀ (an : AggState) (t : List Char),
    (aggSetCurrentTag an t).currentTag = t ∧
    (aggSetCurrentTag an t).sources.all (fun s => s.currentTag == t) = true ∧
    (aggregateFetch an).fst.currentTag = an.currentTag ∧
    (aggregateFetch an).fst.sources.all (fun s => s.currentTag == an.currentTag) = true := by
  intro an t
  refine ⟨rfl, all_tag_set t an.sources, ?_, ?_⟩
  · simp only [aggregateFetch]
    split
    · rfl
    · rfl
  · simp only [aggregateFetch]
    split
    · exact all_tag_set an.currentTag an.sources
    · exact all_tag_set an.currentTag an.sources

end GoDay
